import Mathlib

/-
Verification development for the SVG rasterization cache of the MathAnimation
editor (src/Animations/src/svg/SvgCache.cpp).  The cache state, the shelf
packer, the eviction/growth policy and the hashing of cache keys are embedded
shallowly: C `float` values are modelled as exact rationals, C `int` casts as
truncation toward zero, and the side effects of `put` (LRU insertion, evictions,
page rotation, scissored clears, and synchronous/asynchronous rasterization
dispatch) are recorded as an explicit list of actions in execution order.
-/

namespace MathAnim

/-- Two-component vector, modelling the C++ `Vec2` of floats with exact
rationals. -/
structure Vec2 where
  x : ℚ
  y : ℚ
deriving DecidableEq, Repr

/-- Truncation toward zero, the semantics of a C `(int)` cast applied to a
nonnegative or negative float value. -/
def cTruncQ (q : ℚ) : ℤ :=
  if 0 ≤ q then ⌊q⌋ else -⌊-q⌋

/-- Modelled from the spec: the LRU Store (`LRUCache<K, V>`, section 4.2 of the
spec) is declared in a header that is not under `src/`.  Entries are kept in a
list from oldest to newest; the hash-map view and the intrusive linked list of
the C++ implementation always agree, so a single list represents both. -/
structure LRUCache (K V : Type) where
  entries : List (K × V)
deriving DecidableEq, Repr

namespace LRUCache

variable {K V : Type} [DecidableEq K]

/-- First value stored under a key, scanning oldest to newest.  The C++ map
holds at most one entry per key, so this is the map lookup. -/
def lookupList : List (K × V) → K → Option V
  | [], _ => none
  | (k', v) :: rest, k => if k' = k then some v else lookupList rest k

/-- Removal of a key, modelling the C++ map erase (keys are unique in the map,
so removing every pair with the key is the same operation). -/
def removeList : List (K × V) → K → List (K × V)
  | [], _ => []
  | (k', v) :: rest, k =>
    if k' = k then removeList rest k else (k', v) :: removeList rest k

/-- Spec section 4.2: `exists(key)` does not alter recency. -/
def existsKey (c : LRUCache K V) (k : K) : Bool :=
  (lookupList c.entries k).isSome

/-- Spec section 4.2: `get(key)` returns the value and marks the entry as
most recently used on a hit. -/
def get (c : LRUCache K V) (k : K) : Option V × LRUCache K V :=
  match lookupList c.entries k with
  | some v => (some v, ⟨removeList c.entries k ++ [(k, v)]⟩)
  | none => (none, c)

/-- Spec section 4.2: `insert(key, record)` inserts or overwrites; the entry
becomes most recently used. -/
def insert (c : LRUCache K V) (k : K) (v : V) : LRUCache K V :=
  ⟨removeList c.entries k ++ [(k, v)]⟩

/-- Spec section 4.2: `evict(key)` removes the entry, returning false if the
key is absent. -/
def evict (c : LRUCache K V) (k : K) : Bool × LRUCache K V :=
  if (lookupList c.entries k).isSome then (true, ⟨removeList c.entries k⟩)
  else (false, c)

/-- Spec section 4.2: `size()`. -/
def size (c : LRUCache K V) : ℕ := c.entries.length

/-- Spec section 4.2: oldest-first traversal entry point. -/
def getOldest (c : LRUCache K V) : Option (K × V) := c.entries.head?

end LRUCache

/-- Modelled from the spec: `CMath::combineHash` (math/CMath.h) is not under
`src/`; section 4.1 of the spec prescribes an order-sensitive FNV-style or
multiplicative mixing function over 64-bit words.  Modelled as multiplicative
chaining with the FNV prime, reduced modulo 2^64. -/
def combineHash (v h : ℕ) : ℕ :=
  (h * 1099511628211 + v) % 2 ^ 64

/-- Modelled from the spec: `std::hash<std::string>` is a standard-library
collaborator; section 4.1 of the spec only requires a deterministic,
reproducible hash of the fingerprint bytes.  Modelled as 64-bit FNV-1a. -/
def stdStringHash (bytes : List ℕ) : ℕ :=
  bytes.foldl (fun h b => ((h ^^^ (b % 256)) * 1099511628211) % 2 ^ 64)
    14695981039346656037

/-- Two's-complement view of a C `int` value widened into the 64-bit hash
state. -/
def intBits (i : ℤ) : ℕ := (i % (2 ^ 64 : ℤ)).toNat

/-- `SvgCache::hash` (SvgCache.cpp lines 401-412): the scale is truncated by an
`(int)` cast after multiplying by 1000, the replacement transform after
multiplying by 100, and the results are mixed with the md5 fingerprint hash. -/
def SvgCache.hash (svgMd5 : List ℕ) (svgScale replacementTransform : ℚ) : ℕ :=
  let roundedSvgScale : ℤ := cTruncQ (svgScale * 1000)
  let h1 := combineHash (intBits roundedSvgScale) 0
  let roundedTransform : ℤ := cTruncQ (replacementTransform * 100)
  let h2 := combineHash (intBits roundedTransform) h1
  let md5Hash := stdStringHash svgMd5
  combineHash md5Hash h2

/-- `_SvgCacheEntryInternal`: the placement record stored in the LRU store
(declared in the SvgCache header; field set read off from the uses in
SvgCache.cpp lines 200-207). -/
structure SvgCacheEntryInternal where
  colorAttachment : ℕ
  texCoordsMin : Vec2
  texCoordsMax : Vec2
  svgSize : Vec2
  allottedSize : Vec2
  textureOffset : Vec2
deriving DecidableEq, Repr

/-- Observable side effects of `SvgCache::put`, recorded in execution order. -/
inductive Action where
  | insert (key : ℕ) (entry : SvgCacheEntryInternal)
  | evict (key : ℕ)
  | logEvictionFailed (key : ℕ)
  | clearRegion (attachment : ℕ) (offset allotted : Vec2)
  | rotate
  | rasterSync (attachment : ℕ) (offset : Vec2)
  | rasterAsync (attachment : ℕ) (offset : Vec2)
deriving DecidableEq, Repr

/-- Raster dispatch actions, of either flavor. -/
def Action.isRaster : Action → Bool
  | rasterSync _ _ => true
  | rasterAsync _ _ => true
  | _ => false

/-- Result of the eviction scan of `SvgCache::put` (lines 122-162): either a
reusable slot was found and evicted (its allotted size, pixel offset and page
are handed back together with the store after the eviction), or the scan fell
through to page rotation. -/
inductive ScanOutcome where
  | found (allotted offset : Vec2) (attachment : ℕ)
      (store : LRUCache ℕ SvgCacheEntryInternal) (acts : List Action)
  | notFound (acts : List Action)
deriving DecidableEq, Repr

/-- The eviction scan loop of `SvgCache::put` (lines 122-155).  The loop walks
the intrusive list of LRU nodes oldest to newest (`cands`, which `put` passes
as the entry list of the store) while `counter < maxNumEntriesToTry` (the fuel
argument), looking for the first entry whose allotted size fits `(w, h)`; on a
fit it calls `evict` on the store.  A successful eviction breaks to the reuse
branch; a failed eviction is logged, sets the cursor to null and breaks, which
lands in the rotation branch (`oldest == nullptr`); running out of fuel or out
of nodes also lands in the rotation branch. -/
def evictionScan :
    List (ℕ × SvgCacheEntryInternal) → LRUCache ℕ SvgCacheEntryInternal →
    ℕ → ℚ → ℚ → ScanOutcome
  | _, _, 0, _, _ => .notFound []
  | [], _, _ + 1, _, _ => .notFound []
  | (key, e) :: rest, store, m + 1, w, h =>
    if e.allottedSize.x ≥ w ∧ e.allottedSize.y ≥ h then
      match store.evict key with
      | (true, store') =>
        .found e.allottedSize e.textureOffset e.colorAttachment store'
          [.evict key]
      | (false, _) => .notFound [.logEvictionFailed key]
    else
      evictionScan rest store m w h

/-- The framebuffer that backs the atlas: a fixed pixel size shared by a fixed
number of color attachments (the atlas pages). -/
structure Framebuffer where
  width : ℕ
  height : ℕ
  colorAttachmentCount : ℕ
deriving DecidableEq, Repr

/-- The part of `SvgObject` the cache reads: md5 fingerprint bytes and the
bounding box. -/
structure SvgObject where
  md5 : List ℕ
  bboxMin : Vec2
  bboxMax : Vec2
deriving DecidableEq, Repr

/-- The part of `AnimObject` the cache reads (the md5-null check of the C++
code is modelled as the md5 byte list being nonempty). -/
structure AnimObject where
  svgScale : ℚ
  percentReplacementTransformed : ℚ
  svgObject : SvgObject
deriving DecidableEq, Repr

/-- The global export state read by `put` through
`ExportPanel::isExportingVideo()` (SvgCache.cpp line 213).  It is ambient
process state, not a parameter of the cache calls in the C++ signatures; it is
threaded explicitly here so that its role can be stated. -/
structure ExportPanel where
  isExportingVideo : Bool
deriving DecidableEq, Repr

/-- The mutable state of `SvgCache`: shelf cursor, current page, open-shelf
height, the LRU store, and the framebuffer. -/
structure SvgCache where
  cacheCurrentPos : Vec2
  cacheCurrentColorAttachment : ℕ
  cacheLineHeight : ℚ
  cachedSvgs : LRUCache ℕ SvgCacheEntryInternal
  framebuffer : Framebuffer
deriving DecidableEq, Repr

/-- `SvgCache::cachePadding` (line 14). -/
def cachePadding : Vec2 := ⟨10, 10⟩

/-- `SvgCache::incrementCacheCurrentY` (lines 304-310): advance the cursor to
the next shelf and return the new cursor. -/
def SvgCache.incrementCacheCurrentY (s : SvgCache) : Vec2 × SvgCache :=
  let pos : Vec2 :=
    ⟨0, s.cacheCurrentPos.y + s.cacheLineHeight + cachePadding.y⟩
  (pos, { s with cacheCurrentPos := pos, cacheLineHeight := 0 })

/-- `SvgCache::incrementCacheCurrentX` (lines 312-316). -/
def SvgCache.incrementCacheCurrentX (s : SvgCache) (distance : ℚ) : SvgCache :=
  { s with cacheCurrentPos :=
      ⟨s.cacheCurrentPos.x + distance, s.cacheCurrentPos.y⟩ }

/-- `SvgCache::checkLineHeight` (lines 318-321). -/
def SvgCache.checkLineHeight (s : SvgCache) (newLineHeight : ℚ) : SvgCache :=
  { s with cacheLineHeight := max s.cacheLineHeight newLineHeight }

/-- `SvgCache::growCache` (lines 323-354): rotate to the next color attachment
modulo the page count, drop every LRU entry bound to that attachment (the C++
loop walks the list saving the successor before each evict; evicting a
traversed node's key cannot fail, so the traversal is a filter), and reset the
cursor to the origin.  The open-shelf height is not reset by the source. -/
def SvgCache.growCache (s : SvgCache) : SvgCache :=
  let att := (s.cacheCurrentColorAttachment + 1) % s.framebuffer.colorAttachmentCount
  { s with
      cacheCurrentColorAttachment := att,
      cachedSvgs :=
        ⟨s.cachedSvgs.entries.filter (fun p => decide (p.2.colorAttachment ≠ att))⟩,
      cacheCurrentPos := ⟨0, 0⟩ }

/-- Tail of `SvgCache::put` (lines 182-230): compute the UV rectangle (the y
coordinate of the minimum is divided by the framebuffer width, as in the
source), advance the shelf cursor unless the slot was reused, store the
placement record in the LRU store, and only then dispatch rasterization —
synchronously when the export panel reports an export in progress,
asynchronously otherwise. -/
def SvgCache.finishInsert (panel : ExportPanel) (s : SvgCache) (offset : Vec2)
    (attachment : ℕ) (allotted : Vec2) (k : ℕ) (w h : ℚ)
    (acts : List Action) (incrementX : Bool) : SvgCache × List Action :=
  let fbW : ℚ := s.framebuffer.width
  let fbH : ℚ := s.framebuffer.height
  let uvMin : Vec2 := ⟨offset.x / fbW, 1 - offset.y / fbW - h / fbH⟩
  let uvMax : Vec2 := ⟨uvMin.x + w / fbW, uvMin.y + h / fbH⟩
  let s1 :=
    if incrementX then
      (s.incrementCacheCurrentX (w + cachePadding.x)).checkLineHeight h
    else s
  let res : SvgCacheEntryInternal :=
    { colorAttachment := attachment, texCoordsMin := uvMin, texCoordsMax := uvMax,
      svgSize := ⟨w, h⟩, allottedSize := allotted, textureOffset := offset }
  let s2 := { s1 with cachedSvgs := s1.cachedSvgs.insert k res }
  let rast :=
    if panel.isExportingVideo then Action.rasterSync attachment offset
    else Action.rasterAsync attachment offset
  (s2, acts ++ [Action.insert k res, rast])

/-- Middle of `SvgCache::put` (lines 113-230), after the horizontal wrap has
been resolved: if the rectangle overflows the page vertically, run the
eviction scan with budget `size / 10` (the C++ computes
`(size_t)(0.1f * size)`, which agrees with natural division by 10 for every
store size below 2^24, far above any reachable size); on a found slot, clear
just that region and do not advance the cursor; otherwise rotate pages via
`growCache` and place at the fresh cursor. -/
def SvgCache.putPlace (panel : ExportPanel) (s : SvgCache) (offset : Vec2)
    (attachment : ℕ) (k : ℕ) (w h : ℚ) : SvgCache × List Action :=
  if offset.y + h + cachePadding.y ≥ (s.framebuffer.height : ℚ) then
    match evictionScan s.cachedSvgs.entries s.cachedSvgs
        (s.cachedSvgs.size / 10) w h with
    | .found allotted off att store' acts =>
      SvgCache.finishInsert panel { s with cachedSvgs := store' } off att
        allotted k w h (acts ++ [Action.clearRegion att off allotted]) false
    | .notFound acts =>
      let s2 := s.growCache
      SvgCache.finishInsert panel s2 s2.cacheCurrentPos
        s2.cacheCurrentColorAttachment ⟨w, h⟩ k w h
        (acts ++ [Action.rotate]) true
  else
    SvgCache.finishInsert panel s offset attachment ⟨w, h⟩ k w h [] true

/-- Horizontal wrap step of `SvgCache::put` (lines 106-111): when
`(int)(offset.x + width + padding.x)` reaches the framebuffer width, move to
the next shelf. -/
def SvgCache.wrapIfNeeded (s : SvgCache) (w : ℚ) : Vec2 × SvgCache :=
  if cTruncQ (s.cacheCurrentPos.x + w + cachePadding.x) ≥ (s.framebuffer.width : ℤ) then
    s.incrementCacheCurrentY
  else
    (s.cacheCurrentPos, s)

/-- `SvgCache::put` (lines 83-232) for an already-computed key and content
size: a present key is left untouched (no work, no rasterization); a
non-positive content size is silently skipped; otherwise wrap, place, insert,
and dispatch rasterization. -/
def SvgCache.putSized (panel : ExportPanel) (s : SvgCache) (k : ℕ) (w h : ℚ) :
    SvgCache × List Action :=
  if s.cachedSvgs.existsKey k then (s, [])
  else if w ≤ 0 ∨ h ≤ 0 then (s, [])
  else
    let attachment := s.cacheCurrentColorAttachment
    let (offset, s1) := s.wrapIfNeeded w
    SvgCache.putPlace panel s1 offset attachment k w h

/-- `SvgCache::put` (lines 83-232): the key is hashed from the svg md5 and the
parent's scale and transform, and the content size is the scaled bounding box
of the svg. -/
def SvgCache.put (panel : ExportPanel) (s : SvgCache) (parent : AnimObject)
    (svg : SvgObject) : SvgCache × List Action :=
  let hashValue :=
    SvgCache.hash svg.md5 parent.svgScale parent.percentReplacementTransformed
  let w := (svg.bboxMax.x - svg.bboxMin.x) * parent.svgScale
  let h := (svg.bboxMax.y - svg.bboxMin.y) * parent.svgScale
  SvgCache.putSized panel s hashValue w h

/-- `SvgCacheEntry`: the value handed back to callers (UV rectangle plus a
texture reference; `none` models the static 1x1 dummy texture returned on a
miss). -/
structure SvgCacheEntry where
  texCoordsMin : Vec2
  texCoordsMax : Vec2
  textureRef : Option ℕ
deriving DecidableEq, Repr

/-- `SvgCache::get` (lines 36-60): look the object's key up (refreshing
recency on a hit) and return its UV rectangle and page, or the dummy entry. -/
def SvgCache.get (s : SvgCache) (parent : AnimObject) : SvgCacheEntry × SvgCache :=
  if parent.svgObject.md5 ≠ [] then
    match s.cachedSvgs.get
        (SvgCache.hash parent.svgObject.md5 parent.svgScale
          parent.percentReplacementTransformed) with
    | (some e, store') =>
      (⟨e.texCoordsMin, e.texCoordsMax, some e.colorAttachment⟩,
        { s with cachedSvgs := store' })
    | (none, _) => (⟨⟨0, 0⟩, ⟨1, 1⟩, none⟩, s)
  else (⟨⟨0, 0⟩, ⟨1, 1⟩, none⟩, s)

/-- `SvgCache::getOrCreateIfNotExist` (lines 62-81): on a hit return the
cached coordinates immediately (no rasterization); on a miss run `put` and
re-read through `get`. -/
def SvgCache.getOrCreateIfNotExist (panel : ExportPanel) (s : SvgCache)
    (parent : AnimObject) (svg : SvgObject) :
    SvgCacheEntry × SvgCache × List Action :=
  if parent.svgObject.md5 ≠ [] then
    match s.cachedSvgs.get
        (SvgCache.hash parent.svgObject.md5 parent.svgScale
          parent.percentReplacementTransformed) with
    | (some e, store') =>
      (⟨e.texCoordsMin, e.texCoordsMax, some e.colorAttachment⟩,
        { s with cachedSvgs := store' }, [])
    | (none, _) =>
      let r := SvgCache.put panel s parent svg
      let g := SvgCache.get r.1 parent
      (g.1, g.2, r.2)
  else
    let r := SvgCache.put panel s parent svg
    let g := SvgCache.get r.1 parent
    (g.1, g.2, r.2)

/-- The state after `SvgCache::init` (lines 16-20 and 372-399): a 4096x4096
framebuffer with four color attachments, empty store, cursor at the origin. -/
def SvgCache.initState : SvgCache :=
  { cacheCurrentPos := ⟨0, 0⟩, cacheCurrentColorAttachment := 0,
    cacheLineHeight := 0, cachedSvgs := ⟨[]⟩,
    framebuffer := { width := 4096, height := 4096, colorAttachmentCount := 4 } }

/-- Spec section 3 invariant on a stored placement record: the allotted slot
covers the content, and the reserved pixel region lies entirely within the
page. -/
def recordInBounds (fb : Framebuffer) (e : SvgCacheEntryInternal) : Prop :=
  e.svgSize.x ≤ e.allottedSize.x ∧ e.svgSize.y ≤ e.allottedSize.y ∧
  0 ≤ e.textureOffset.x ∧ 0 ≤ e.textureOffset.y ∧
  e.textureOffset.x + e.allottedSize.x ≤ (fb.width : ℚ) ∧
  e.textureOffset.y + e.allottedSize.y ≤ (fb.height : ℚ)

/-- Well-formedness of a cache state: every stored record is in bounds and the
cursor bookkeeping is nonnegative. -/
def cacheStateOK (s : SvgCache) : Prop :=
  (∀ p ∈ s.cachedSvgs.entries, recordInBounds s.framebuffer p.2) ∧
  0 ≤ s.cacheCurrentPos.x ∧ 0 ≤ s.cacheCurrentPos.y ∧ 0 ≤ s.cacheLineHeight

namespace LRUCache

variable {K V : Type} [DecidableEq K]

theorem lookupList_removeList_append (l : List (K × V)) (k : K) (v : V) :
    lookupList (removeList l k ++ [(k, v)]) k = some v := by
  induction l with
  | nil => simp [removeList, lookupList]
  | cons p rest ih =>
    obtain ⟨k', v'⟩ := p
    by_cases h : k' = k
    · simpa [removeList, h] using ih
    · simpa [removeList, lookupList, h] using ih

theorem lookupList_mem {l : List (K × V)} {k : K} {v : V}
    (h : lookupList l k = some v) : (k, v) ∈ l := by
  induction l with
  | nil => simp [lookupList] at h
  | cons p rest ih =>
    obtain ⟨k', v'⟩ := p
    by_cases hk : k' = k
    · subst hk
      simp [lookupList] at h
      simp [h]
    · simp [lookupList, hk] at h
      exact List.mem_cons_of_mem _ (ih h)

theorem mem_removeList {l : List (K × V)} {k : K} {p : K × V}
    (h : p ∈ removeList l k) : p ∈ l := by
  induction l with
  | nil => simp [removeList] at h
  | cons q rest ih =>
    obtain ⟨k', v'⟩ := q
    by_cases hk : k' = k
    · simp [removeList, hk] at h
      exact List.mem_cons_of_mem _ (ih h)
    · simp [removeList, hk] at h
      rcases h with h | h
      · simp [h]
      · exact List.mem_cons_of_mem _ (ih h)

theorem lookupList_eq_none_of_not_mem_keys {l : List (K × V)} {k : K}
    (h : k ∉ l.map Prod.fst) : lookupList l k = none := by
  induction l with
  | nil => simp [lookupList]
  | cons p rest ih =>
    obtain ⟨k', v'⟩ := p
    simp only [List.map_cons, List.mem_cons] at h
    push_neg at h
    have hk : k' ≠ k := fun he => h.1 he.symm
    simp [lookupList, hk, ih h.2]

theorem lookupList_filter_some {l : List (K × V)} {k : K} {v : V}
    (p : K × V → Bool) (hl : lookupList l k = some v) (hp : p (k, v) = true) :
    lookupList (l.filter p) k = some v := by
  induction l with
  | nil => simp [lookupList] at hl
  | cons q rest ih =>
    obtain ⟨k', v'⟩ := q
    by_cases hk : k' = k
    · subst hk
      simp only [lookupList, if_true, eq_self_iff_true, Option.some.injEq] at hl
      subst hl
      simp [List.filter_cons, hp, lookupList]
    · simp only [lookupList, if_neg hk] at hl
      by_cases hq : p (k', v') = true
      · simp [List.filter_cons, hq, lookupList, hk, ih hl]
      · simp only [Bool.not_eq_true] at hq
        simp [List.filter_cons, hq, ih hl]

theorem lookupList_filter_none {l : List (K × V)} {k : K} {v : V}
    (p : K × V → Bool) (hnd : (l.map Prod.fst).Nodup)
    (hl : lookupList l k = some v) (hp : p (k, v) = false) :
    lookupList (l.filter p) k = none := by
  induction l with
  | nil => simp [lookupList] at hl
  | cons q rest ih =>
    obtain ⟨k', v'⟩ := q
    simp only [List.map_cons, List.nodup_cons] at hnd
    by_cases hk : k' = k
    · subst hk
      simp only [lookupList, if_true, eq_self_iff_true, Option.some.injEq] at hl
      subst hl
      have hrest : lookupList (rest.filter p) k' = none := by
        apply lookupList_eq_none_of_not_mem_keys
        intro hmem
        exact hnd.1 (List.map_subset Prod.fst (List.filter_sublist rest).subset hmem)
      simp [List.filter_cons, hp, hrest]
    · simp only [lookupList, if_neg hk] at hl
      by_cases hq : p (k', v') = true
      · simp [List.filter_cons, hq, lookupList, hk, ih hnd.2 hl]
      · simp only [Bool.not_eq_true] at hq
        simp [List.filter_cons, hq, ih hnd.2 hl]

theorem lookupList_insert (c : LRUCache K V) (k : K) (v : V) :
    lookupList (c.insert k v).entries k = some v :=
  lookupList_removeList_append c.entries k v

theorem existsKey_insert (c : LRUCache K V) (k : K) (v : V) :
    (c.insert k v).existsKey k = true := by
  simp [existsKey, insert, lookupList_removeList_append]

theorem insert_entries_forall {c : LRUCache K V} {k : K} {res : V}
    {P : K × V → Prop} (hc : ∀ p ∈ c.entries, P p) (hres : P (k, res)) :
    ∀ p ∈ (c.insert k res).entries, P p := by
  intro p hp
  simp only [insert, List.mem_append, List.mem_singleton] at hp
  rcases hp with hp | hp
  · exact hc p (mem_removeList hp)
  · subst hp
    exact hres

end LRUCache

theorem cTruncQ_of_nonneg {q : ℚ} (h : 0 ≤ q) : cTruncQ q = ⌊q⌋ :=
  if_pos h

theorem cTruncQ_ge_of_ge {q : ℚ} {n : ℤ} (hq : 0 ≤ q) (h : (n : ℚ) ≤ q) :
    n ≤ cTruncQ q := by
  rw [cTruncQ_of_nonneg hq]
  exact Int.le_floor.mpr h

theorem lt_of_cTruncQ_lt {q : ℚ} {n : ℤ} (hq : 0 ≤ q) (h : cTruncQ q < n) :
    q < (n : ℚ) := by
  rw [cTruncQ_of_nonneg hq] at h
  have h1 : q < (⌊q⌋ : ℚ) + 1 := Int.lt_floor_add_one q
  have h2 : ((⌊q⌋ : ℤ) : ℚ) + 1 ≤ (n : ℚ) := by
    exact_mod_cast Int.add_one_le_iff.mpr h
  linarith

theorem evictionScan_take (cands : List (ℕ × SvgCacheEntryInternal))
    (store : LRUCache ℕ SvgCacheEntryInternal) (m : ℕ) (w h : ℚ) :
    evictionScan cands store m w h =
      evictionScan (cands.take m) store m w h := by
  induction cands generalizing m with
  | nil => simp
  | cons p rest ih =>
    obtain ⟨key, e⟩ := p
    cases m with
    | zero => simp [evictionScan]
    | succ m =>
      simp only [List.take_succ_cons, evictionScan]
      by_cases hfit : e.allottedSize.x ≥ w ∧ e.allottedSize.y ≥ h
      · simp [hfit]
      · simp [hfit, ih m]

theorem evictionScan_found_spec (cands : List (ℕ × SvgCacheEntryInternal))
    (store : LRUCache ℕ SvgCacheEntryInternal) (m : ℕ) (w h : ℚ)
    (allotted offset : Vec2) (att : ℕ)
    (store' : LRUCache ℕ SvgCacheEntryInternal) (acts : List Action)
    (hscan : evictionScan cands store m w h =
      .found allotted offset att store' acts) :
    ∃ key e, (key, e) ∈ cands ∧ allotted = e.allottedSize ∧
      offset = e.textureOffset ∧ att = e.colorAttachment ∧
      w ≤ e.allottedSize.x ∧ h ≤ e.allottedSize.y ∧
      acts = [Action.evict key] ∧
      (∀ p ∈ store'.entries, p ∈ store.entries) := by
  induction cands generalizing m with
  | nil =>
    cases m <;> simp [evictionScan] at hscan
  | cons p rest ih =>
    obtain ⟨key, e⟩ := p
    cases m with
    | zero => simp [evictionScan] at hscan
    | succ m =>
      by_cases hfit : e.allottedSize.x ≥ w ∧ e.allottedSize.y ≥ h
      · by_cases hs : (LRUCache.lookupList store.entries key).isSome
        · simp only [evictionScan, if_pos hfit, LRUCache.evict, hs,
            if_true, ScanOutcome.found.injEq] at hscan
          obtain ⟨h1, h2, h3, h4, h5⟩ := hscan
          refine ⟨key, e, by simp, h1.symm, h2.symm, h3.symm, hfit.1, hfit.2,
            h5.symm, ?_⟩
          intro p hp
          rw [← h4] at hp
          exact LRUCache.mem_removeList hp
        · simp only [Bool.not_eq_true] at hs
          simp [evictionScan, if_pos hfit, LRUCache.evict, hs] at hscan
      · simp only [evictionScan, if_neg hfit] at hscan
        obtain ⟨key', e', hmem, rest'⟩ :=
          (by exact ih m hscan :
            ∃ key' e', (key', e') ∈ rest ∧ allotted = e'.allottedSize ∧
              offset = e'.textureOffset ∧ att = e'.colorAttachment ∧
              w ≤ e'.allottedSize.x ∧ h ≤ e'.allottedSize.y ∧
              acts = [Action.evict key'] ∧
              (∀ p ∈ store'.entries, p ∈ store.entries))
        exact ⟨key', e', List.mem_cons_of_mem _ hmem, rest'⟩

theorem evictionScan_notFound_acts (cands : List (ℕ × SvgCacheEntryInternal))
    (store : LRUCache ℕ SvgCacheEntryInternal) (m : ℕ) (w h : ℚ)
    (acts : List Action)
    (hscan : evictionScan cands store m w h = .notFound acts) :
    acts = [] ∨ ∃ key, acts = [Action.logEvictionFailed key] := by
  induction cands generalizing m with
  | nil =>
    cases m <;> · simp [evictionScan, ScanOutcome.notFound.injEq] at hscan
                  simp [hscan.symm]
  | cons p rest ih =>
    obtain ⟨key, e⟩ := p
    cases m with
    | zero =>
      simp [evictionScan, ScanOutcome.notFound.injEq] at hscan
      simp [hscan.symm]
    | succ m =>
      by_cases hfit : e.allottedSize.x ≥ w ∧ e.allottedSize.y ≥ h
      · by_cases hs : (LRUCache.lookupList store.entries key).isSome
        · simp [evictionScan, if_pos hfit, LRUCache.evict, hs] at hscan
        · simp only [Bool.not_eq_true] at hs
          simp only [evictionScan, if_pos hfit, LRUCache.evict, hs,
            Bool.false_eq_true, if_false, ScanOutcome.notFound.injEq] at hscan
          exact Or.inr ⟨key, hscan.symm⟩
      · simp only [evictionScan, if_neg hfit] at hscan
        exact ih m hscan

theorem finishInsert_snd (panel : ExportPanel) (s : SvgCache) (offset : Vec2)
    (att : ℕ) (al : Vec2) (k : ℕ) (w h : ℚ) (acts : List Action) (ix : Bool) :
    ∃ res, (SvgCache.finishInsert panel s offset att al k w h acts ix).2 =
      acts ++ [Action.insert k res,
        if panel.isExportingVideo then Action.rasterSync att offset
        else Action.rasterAsync att offset] :=
  ⟨_, rfl⟩

theorem finishInsert_existsKey (panel : ExportPanel) (s : SvgCache)
    (offset : Vec2) (att : ℕ) (al : Vec2) (k : ℕ) (w h : ℚ)
    (acts : List Action) (ix : Bool) :
    (SvgCache.finishInsert panel s offset att al k w h acts ix).1.cachedSvgs.existsKey
      k = true := by
  simp only [SvgCache.finishInsert]
  exact LRUCache.existsKey_insert _ _ _

theorem putSized_miss_eq (panel : ExportPanel) (s : SvgCache) (k : ℕ) (w h : ℚ)
    (hmiss : s.cachedSvgs.existsKey k = false) (hw : 0 < w) (hh : 0 < h) :
    SvgCache.putSized panel s k w h =
      SvgCache.putPlace panel (s.wrapIfNeeded w).2 (s.wrapIfNeeded w).1
        s.cacheCurrentColorAttachment k w h := by
  have hsz : ¬(w ≤ 0 ∨ h ≤ 0) := by
    push_neg
    exact ⟨hw, hh⟩
  rcases hE : s.wrapIfNeeded w with ⟨offset, s1⟩
  simp [SvgCache.putSized, hmiss, hsz, hE]

theorem wrapIfNeeded_cachedSvgs (s : SvgCache) (w : ℚ) :
    (s.wrapIfNeeded w).2.cachedSvgs = s.cachedSvgs := by
  by_cases hcond : cTruncQ (s.cacheCurrentPos.x + w + cachePadding.x) ≥
      (s.framebuffer.width : ℤ) <;>
    simp [SvgCache.wrapIfNeeded, hcond, SvgCache.incrementCacheCurrentY]

theorem wrapIfNeeded_framebuffer (s : SvgCache) (w : ℚ) :
    (s.wrapIfNeeded w).2.framebuffer = s.framebuffer := by
  by_cases hcond : cTruncQ (s.cacheCurrentPos.x + w + cachePadding.x) ≥
      (s.framebuffer.width : ℤ) <;>
    simp [SvgCache.wrapIfNeeded, hcond, SvgCache.incrementCacheCurrentY]

theorem putPlace_trace (panel : ExportPanel) (s1 : SvgCache) (offset : Vec2)
    (att : ℕ) (k : ℕ) (w h : ℚ) :
    ∃ pre res attR offR,
      (SvgCache.putPlace panel s1 offset att k w h).2 =
        pre ++ [Action.insert k res,
          if panel.isExportingVideo then Action.rasterSync attR offR
          else Action.rasterAsync attR offR] ∧
      (∀ a ∈ pre, a.isRaster = false) ∧
      (SvgCache.putPlace panel s1 offset att k w h).1.cachedSvgs.existsKey k
        = true := by
  by_cases hov : offset.y + h + cachePadding.y ≥ (s1.framebuffer.height : ℚ)
  · simp only [SvgCache.putPlace, if_pos hov]
    rcases hscan : evictionScan s1.cachedSvgs.entries s1.cachedSvgs
        (s1.cachedSvgs.size / 10) w h with ⟨al, off, att', st', acts⟩ | ⟨acts⟩
    · obtain ⟨key, e, -, -, -, -, -, -, hacts, -⟩ :=
        evictionScan_found_spec _ _ _ _ _ _ _ _ _ _ hscan
      obtain ⟨res, hres⟩ := finishInsert_snd panel { s1 with cachedSvgs := st' }
        off att' al k w h (acts ++ [Action.clearRegion att' off al]) false
      refine ⟨acts ++ [Action.clearRegion att' off al], res, att', off,
        hres, ?_, finishInsert_existsKey _ _ _ _ _ _ _ _ _ _⟩
      rw [hacts]
      intro a ha
      simp only [List.mem_append, List.mem_singleton] at ha
      rcases ha with ha | ha <;>
        · subst ha
          rfl
    · have hacts := evictionScan_notFound_acts _ _ _ _ _ _ hscan
      obtain ⟨res, hres⟩ := finishInsert_snd panel s1.growCache
        s1.growCache.cacheCurrentPos s1.growCache.cacheCurrentColorAttachment
        ⟨w, h⟩ k w h (acts ++ [Action.rotate]) true
      refine ⟨acts ++ [Action.rotate], res,
        s1.growCache.cacheCurrentColorAttachment, s1.growCache.cacheCurrentPos,
        hres, ?_, finishInsert_existsKey _ _ _ _ _ _ _ _ _ _⟩
      intro a ha
      simp only [List.mem_append, List.mem_singleton] at ha
      rcases ha with ha | ha
      · rcases hacts with hnil | ⟨key, hlog⟩
        · rw [hnil] at ha
          simp at ha
        · rw [hlog] at ha
          simp only [List.mem_singleton] at ha
          subst ha
          rfl
      · subst ha
        rfl
  · simp only [SvgCache.putPlace, if_neg hov]
    obtain ⟨res, hres⟩ := finishInsert_snd panel s1 offset att ⟨w, h⟩ k w h [] true
    refine ⟨[], res, att, offset, hres, ?_, finishInsert_existsKey _ _ _ _ _ _ _ _ _ _⟩
    intro a ha
    simp at ha

/-- C1: Cache hit idempotence.  For a key already present in the cache, a
second `getOrCreateIfNotExist` returns the cached placement record unchanged
(its UV rectangle and page), performs no observable action — in particular the
rasterize callback is not invoked again — and the record stored under the key
is unchanged. -/
theorem c1_cache_hit_idempotence (panel : ExportPanel) (s : SvgCache)
    (parent : AnimObject) (svg : SvgObject) (e : SvgCacheEntryInternal)
    (hmd5 : parent.svgObject.md5 ≠ [])
    (hhit : LRUCache.lookupList s.cachedSvgs.entries
      (SvgCache.hash parent.svgObject.md5 parent.svgScale
        parent.percentReplacementTransformed) = some e) :
    (SvgCache.getOrCreateIfNotExist panel s parent svg).1 =
      ⟨e.texCoordsMin, e.texCoordsMax, some e.colorAttachment⟩ ∧
    (SvgCache.getOrCreateIfNotExist panel s parent svg).2.2 = [] ∧
    LRUCache.lookupList
      (SvgCache.getOrCreateIfNotExist panel s parent svg).2.1.cachedSvgs.entries
      (SvgCache.hash parent.svgObject.md5 parent.svgScale
        parent.percentReplacementTransformed) = some e ∧
    (∀ w h : ℚ, SvgCache.putSized panel s
      (SvgCache.hash parent.svgObject.md5 parent.svgScale
        parent.percentReplacementTransformed) w h = (s, [])) := by
  have hex : s.cachedSvgs.existsKey
      (SvgCache.hash parent.svgObject.md5 parent.svgScale
        parent.percentReplacementTransformed) = true := by
    simp [LRUCache.existsKey, hhit]
  refine ⟨?_, ?_, ?_, ?_⟩
  · simp only [SvgCache.getOrCreateIfNotExist, if_pos hmd5, LRUCache.get, hhit]
  · simp only [SvgCache.getOrCreateIfNotExist, if_pos hmd5, LRUCache.get, hhit]
  · simp only [SvgCache.getOrCreateIfNotExist, if_pos hmd5, LRUCache.get, hhit]
    exact LRUCache.lookupList_removeList_append _ _ _
  · intro w h
    simp [SvgCache.putSized, hex]

/-- Witness for C1 at a concrete one-entry cache: the second call performs no
action at all. -/
theorem c1_cache_hit_idempotence_witness :
    (SvgCache.getOrCreateIfNotExist ⟨false⟩
        { cacheCurrentPos := ⟨0, 0⟩, cacheCurrentColorAttachment := 0,
          cacheLineHeight := 0,
          cachedSvgs := ⟨[(SvgCache.hash [3] 1 1,
            { colorAttachment := 2, texCoordsMin := ⟨0, 0⟩,
              texCoordsMax := ⟨1, 1⟩, svgSize := ⟨100, 50⟩,
              allottedSize := ⟨100, 50⟩, textureOffset := ⟨0, 0⟩ })]⟩,
          framebuffer := ⟨4096, 4096, 4⟩ }
        ⟨1, 1, ⟨[3], ⟨0, 0⟩, ⟨1, 1⟩⟩⟩ ⟨[3], ⟨0, 0⟩, ⟨1, 1⟩⟩).2.2 = [] :=
  (c1_cache_hit_idempotence ⟨false⟩
      { cacheCurrentPos := ⟨0, 0⟩, cacheCurrentColorAttachment := 0,
        cacheLineHeight := 0,
        cachedSvgs := ⟨[(SvgCache.hash [3] 1 1,
          { colorAttachment := 2, texCoordsMin := ⟨0, 0⟩,
            texCoordsMax := ⟨1, 1⟩, svgSize := ⟨100, 50⟩,
            allottedSize := ⟨100, 50⟩, textureOffset := ⟨0, 0⟩ })]⟩,
        framebuffer := ⟨4096, 4096, 4⟩ }
      ⟨1, 1, ⟨[3], ⟨0, 0⟩, ⟨1, 1⟩⟩⟩ ⟨[3], ⟨0, 0⟩, ⟨1, 1⟩⟩
      { colorAttachment := 2, texCoordsMin := ⟨0, 0⟩,
        texCoordsMax := ⟨1, 1⟩, svgSize := ⟨100, 50⟩,
        allottedSize := ⟨100, 50⟩, textureOffset := ⟨0, 0⟩ }
      (by decide) (by simp [LRUCache.lookupList])).2.1

/-- C2: Insert-before-rasterize ordering.  On every cache miss with a positive
content size, the action trace of `put` inserts the placement record strictly
before the single rasterization action (of either dispatch flavor), and the
key is present in the store afterwards. -/
theorem c2_insert_before_rasterize (panel : ExportPanel) (s : SvgCache)
    (k : ℕ) (w h : ℚ) (hmiss : s.cachedSvgs.existsKey k = false)
    (hw : 0 < w) (hh : 0 < h) :
    ∃ pre res rast,
      (SvgCache.putSized panel s k w h).2 = pre ++ [Action.insert k res, rast] ∧
      (∀ a ∈ pre, a.isRaster = false) ∧ rast.isRaster = true ∧
      (SvgCache.putSized panel s k w h).1.cachedSvgs.existsKey k = true := by
  rw [putSized_miss_eq panel s k w h hmiss hw hh]
  obtain ⟨pre, res, attR, offR, htr, hpre, hex⟩ :=
    putPlace_trace panel (s.wrapIfNeeded w).2 (s.wrapIfNeeded w).1
      s.cacheCurrentColorAttachment k w h
  refine ⟨pre, res,
    if panel.isExportingVideo then Action.rasterSync attR offR
    else Action.rasterAsync attR offR, htr, hpre, ?_, hex⟩
  cases hB : panel.isExportingVideo <;> simp [hB, Action.isRaster]

/-- Witness for C2 on the empty initial cache. -/
theorem c2_insert_before_rasterize_witness :
    ∃ pre res rast,
      (SvgCache.putSized ⟨true⟩ SvgCache.initState 1 100 50).2 =
        pre ++ [Action.insert 1 res, rast] ∧
      (∀ a ∈ pre, a.isRaster = false) ∧ rast.isRaster = true ∧
      (SvgCache.putSized ⟨true⟩ SvgCache.initState 1 100 50).1.cachedSvgs.existsKey
        1 = true :=
  c2_insert_before_rasterize _ _ _ _ _ rfl (by norm_num) (by norm_num)

/-- C3 counterexample: the claim says the dispatch mode is determined solely by
a parameter the caller passes into the call.  The C++ `put(parent, svg)` call
carries no dispatch parameter; the two invocations below agree on every
caller-supplied argument and differ only in the ambient export-panel state
(`ExportPanel::isExportingVideo()`), yet their dispatch actions differ. -/
theorem c3_counterexample :
    (SvgCache.putSized ⟨true⟩ SvgCache.initState 1 100 50).2 ≠
    (SvgCache.putSized ⟨false⟩ SvgCache.initState 1 100 50).2 := by
  norm_num [SvgCache.putSized, SvgCache.initState, SvgCache.wrapIfNeeded,
    SvgCache.putPlace, SvgCache.finishInsert, LRUCache.existsKey,
    LRUCache.lookupList, cTruncQ, cachePadding, SvgCache.incrementCacheCurrentX,
    SvgCache.checkLineHeight, LRUCache.insert, LRUCache.removeList,
    LRUCache.size, evictionScan]
  exact fun hc => Action.noConfusion hc

/-- C3 (amended): whether rasterization runs synchronously or asynchronously is
determined by the global export flag (`ExportPanel::isExportingVideo()`) read
inside `put`, not by a caller-supplied parameter: on every placing miss the
trace ends with a synchronous rasterization exactly when the flag is set and
an asynchronous one otherwise. -/
theorem c3_amended_dispatch_by_global_flag (panel : ExportPanel) (s : SvgCache)
    (k : ℕ) (w h : ℚ) (hmiss : s.cachedSvgs.existsKey k = false)
    (hw : 0 < w) (hh : 0 < h) :
    ∃ pre attR offR,
      (SvgCache.putSized panel s k w h).2 =
        pre ++ [if panel.isExportingVideo then Action.rasterSync attR offR
                else Action.rasterAsync attR offR] := by
  rw [putSized_miss_eq panel s k w h hmiss hw hh]
  obtain ⟨pre, res, attR, offR, htr, -, -⟩ :=
    putPlace_trace panel (s.wrapIfNeeded w).2 (s.wrapIfNeeded w).1
      s.cacheCurrentColorAttachment k w h
  refine ⟨pre ++ [Action.insert k res], attR, offR, ?_⟩
  rw [htr]
  simp

/-- Witness for C3 (amended) on the empty initial cache. -/
theorem c3_amended_dispatch_by_global_flag_witness :
    ∃ pre attR offR,
      (SvgCache.putSized ⟨true⟩ SvgCache.initState 2 100 50).2 =
        pre ++ [if (ExportPanel.mk true).isExportingVideo then
                  Action.rasterSync attR offR
                else Action.rasterAsync attR offR] :=
  c3_amended_dispatch_by_global_flag ⟨true⟩ SvgCache.initState 2 100 50 rfl
    (by norm_num) (by norm_num)

/-- C5 counterexample: the claim asserts
`computeKey(f, 1.0004, t) != computeKey(f, 1.0006, t)`, but the code truncates
`(int)(scale * 1000)`, so both scales collapse to 1000 and the keys are
equal. -/
theorem c5_counterexample :
    SvgCache.hash [1, 2] (1.0004 : ℚ) (1 / 2) =
    SvgCache.hash [1, 2] (1.0006 : ℚ) (1 / 2) := by
  have h1 : cTruncQ ((1.0004 : ℚ) * 1000) = cTruncQ ((1.0006 : ℚ) * 1000) := by
    norm_num [cTruncQ]
  simp only [SvgCache.hash, h1]

/-- C5 (amended): rounding collapse of the cache key under truncation — for
every fingerprint and transform, the scales 1.0001, 1.0004 and 1.0006 all
truncate to the same thousandth (1000), so all three produce the same key;
keys differ only when the truncated thousandths differ. -/
theorem c5_amended_rounding_collapse (f : List ℕ) (t : ℚ) :
    SvgCache.hash f (1.0001 : ℚ) t = SvgCache.hash f (1.0004 : ℚ) t ∧
    SvgCache.hash f (1.0004 : ℚ) t = SvgCache.hash f (1.0006 : ℚ) t := by
  have h1 : cTruncQ ((1.0001 : ℚ) * 1000) = cTruncQ ((1.0004 : ℚ) * 1000) := by
    norm_num [cTruncQ]
  have h2 : cTruncQ ((1.0004 : ℚ) * 1000) = cTruncQ ((1.0006 : ℚ) * 1000) := by
    norm_num [cTruncQ]
  exact ⟨by simp only [SvgCache.hash, h1], by simp only [SvgCache.hash, h2]⟩

/-- C6: Eviction scan bound.  The eviction scan `put` runs is invoked with the
budget `size / 10` (the C++ `(size_t)(0.1f * size)`, which is `floor(0.1 * N)`
for every reachable store size); its outcome depends only on the first
`floor(0.1 * N)` oldest entries — entries newer than that bound are never
considered for reuse. -/
theorem c6_eviction_scan_bound (store : LRUCache ℕ SvgCacheEntryInternal)
    (w h : ℚ) :
    evictionScan store.entries store (store.size / 10) w h =
      evictionScan (store.entries.take (store.size / 10)) store
        (store.size / 10) w h :=
  evictionScan_take _ _ _ _ _

/-- C4 counterexample: the claim says that on an eviction failure the scan
continues with the next candidate and does not fall through to page rotation
because of that failure alone.  In the code a failed evict clears the cursor
and breaks, landing in the rotation branch.  Below, evicting the first fitting
candidate (key 1) fails, the very next candidate (key 2) also fits and is
evictable from the store, yet the scan outcome is the rotation fallback.  (In
the assembled cache the traversal list and the store always agree, so the
failure branch is unreachable; the claim is about the behavior of exactly this
code path.) -/
theorem c4_counterexample :
    evictionScan
        [(1, { colorAttachment := 0, texCoordsMin := ⟨0, 0⟩,
               texCoordsMax := ⟨1, 1⟩, svgSize := ⟨50, 40⟩,
               allottedSize := ⟨200, 100⟩, textureOffset := ⟨0, 0⟩ }),
         (2, { colorAttachment := 0, texCoordsMin := ⟨0, 0⟩,
               texCoordsMax := ⟨1, 1⟩, svgSize := ⟨50, 40⟩,
               allottedSize := ⟨200, 100⟩, textureOffset := ⟨0, 300⟩ })]
        ⟨[(2, { colorAttachment := 0, texCoordsMin := ⟨0, 0⟩,
                texCoordsMax := ⟨1, 1⟩, svgSize := ⟨50, 40⟩,
                allottedSize := ⟨200, 100⟩, textureOffset := ⟨0, 300⟩ })]⟩
        2 100 50 = .notFound [Action.logEvictionFailed 1] ∧
    (LRUCache.evict
        (⟨[(2, { colorAttachment := 0, texCoordsMin := ⟨0, 0⟩,
                 texCoordsMax := ⟨1, 1⟩, svgSize := ⟨50, 40⟩,
                 allottedSize := ⟨200, 100⟩, textureOffset := ⟨0, 300⟩ })]⟩ :
          LRUCache ℕ SvgCacheEntryInternal)
        2).1 = true := by
  constructor
  · norm_num [evictionScan, LRUCache.evict, LRUCache.lookupList]
  · norm_num [LRUCache.evict, LRUCache.lookupList]

/-- C4 (amended): when evicting the chosen (first fitting) candidate fails
because its key is not present in the store, the failure is logged and the
scan is aborted — the remaining candidates are ignored and the outcome is the
page-rotation fallback. -/
theorem c4_amended_eviction_failure_aborts (key : ℕ)
    (e : SvgCacheEntryInternal) (rest : List (ℕ × SvgCacheEntryInternal))
    (store : LRUCache ℕ SvgCacheEntryInternal) (m : ℕ) (w h : ℚ)
    (hfit : e.allottedSize.x ≥ w ∧ e.allottedSize.y ≥ h)
    (habsent : LRUCache.lookupList store.entries key = none) :
    evictionScan ((key, e) :: rest) store (m + 1) w h =
      .notFound [Action.logEvictionFailed key] := by
  simp [evictionScan, hfit.1, hfit.2, LRUCache.evict, habsent]

/-- Witness for C4 (amended) at a concrete candidate and empty store. -/
theorem c4_amended_eviction_failure_aborts_witness :
    evictionScan
        [(1, { colorAttachment := 0, texCoordsMin := ⟨0, 0⟩,
               texCoordsMax := ⟨1, 1⟩, svgSize := ⟨50, 40⟩,
               allottedSize := ⟨200, 100⟩, textureOffset := ⟨0, 0⟩ })]
        ⟨[]⟩ 1 100 50 = .notFound [Action.logEvictionFailed 1] :=
  c4_amended_eviction_failure_aborts 1
    { colorAttachment := 0, texCoordsMin := ⟨0, 0⟩, texCoordsMax := ⟨1, 1⟩,
      svgSize := ⟨50, 40⟩, allottedSize := ⟨200, 100⟩, textureOffset := ⟨0, 0⟩ }
    [] ⟨[]⟩ 0 100 50 (by norm_num) rfl

/-- C7: Page rotation invalidation.  `growCache` advances the current page to
the next color attachment modulo the page count; afterwards every key whose
stored record referenced the new page is gone from the store, every entry
bound to another page survives unchanged, and no surviving record references
the new page. -/
theorem c7_page_rotation_invalidation (s : SvgCache)
    (hnd : (s.cachedSvgs.entries.map Prod.fst).Nodup) :
    s.growCache.cacheCurrentColorAttachment =
      (s.cacheCurrentColorAttachment + 1) % s.framebuffer.colorAttachmentCount ∧
    (∀ k e, LRUCache.lookupList s.cachedSvgs.entries k = some e →
      e.colorAttachment = s.growCache.cacheCurrentColorAttachment →
      LRUCache.lookupList s.growCache.cachedSvgs.entries k = none) ∧
    (∀ k e, LRUCache.lookupList s.cachedSvgs.entries k = some e →
      e.colorAttachment ≠ s.growCache.cacheCurrentColorAttachment →
      LRUCache.lookupList s.growCache.cachedSvgs.entries k = some e) ∧
    (∀ k e, LRUCache.lookupList s.growCache.cachedSvgs.entries k = some e →
      e.colorAttachment ≠ s.growCache.cacheCurrentColorAttachment) := by
  have hatt : s.growCache.cacheCurrentColorAttachment =
      (s.cacheCurrentColorAttachment + 1) % s.framebuffer.colorAttachmentCount :=
    rfl
  have hentries : s.growCache.cachedSvgs.entries =
      s.cachedSvgs.entries.filter
        (fun p => decide (p.2.colorAttachment ≠
          (s.cacheCurrentColorAttachment + 1) %
            s.framebuffer.colorAttachmentCount)) := rfl
  refine ⟨rfl, ?_, ?_, ?_⟩
  · intro k e hl he
    rw [hatt] at he
    rw [hentries]
    exact LRUCache.lookupList_filter_none _ hnd hl (by simp [he])
  · intro k e hl hne
    rw [hatt] at hne
    rw [hentries]
    exact LRUCache.lookupList_filter_some _ hl (by simp [hne])
  · intro k e hl
    rw [hentries] at hl
    have hmem := LRUCache.lookupList_mem hl
    rw [hatt]
    exact of_decide_eq_true (List.mem_filter.mp hmem).2

/-- Witness for C7: rotating from page 0 to page 1 drops the key on page 1 and
keeps the key on page 2. -/
theorem c7_page_rotation_invalidation_witness :
    LRUCache.lookupList
      (SvgCache.growCache
        { cacheCurrentPos := ⟨0, 0⟩, cacheCurrentColorAttachment := 0,
          cacheLineHeight := 0,
          cachedSvgs := ⟨[(5,
            { colorAttachment := 1, texCoordsMin := ⟨0, 0⟩,
              texCoordsMax := ⟨1, 1⟩, svgSize := ⟨10, 10⟩,
              allottedSize := ⟨10, 10⟩, textureOffset := ⟨0, 0⟩ }),
            (6,
            { colorAttachment := 2, texCoordsMin := ⟨0, 0⟩,
              texCoordsMax := ⟨1, 1⟩, svgSize := ⟨20, 20⟩,
              allottedSize := ⟨20, 20⟩, textureOffset := ⟨0, 0⟩ })]⟩,
          framebuffer := ⟨4096, 4096, 4⟩ }).cachedSvgs.entries 5 = none ∧
    LRUCache.lookupList
      (SvgCache.growCache
        { cacheCurrentPos := ⟨0, 0⟩, cacheCurrentColorAttachment := 0,
          cacheLineHeight := 0,
          cachedSvgs := ⟨[(5,
            { colorAttachment := 1, texCoordsMin := ⟨0, 0⟩,
              texCoordsMax := ⟨1, 1⟩, svgSize := ⟨10, 10⟩,
              allottedSize := ⟨10, 10⟩, textureOffset := ⟨0, 0⟩ }),
            (6,
            { colorAttachment := 2, texCoordsMin := ⟨0, 0⟩,
              texCoordsMax := ⟨1, 1⟩, svgSize := ⟨20, 20⟩,
              allottedSize := ⟨20, 20⟩, textureOffset := ⟨0, 0⟩ })]⟩,
          framebuffer := ⟨4096, 4096, 4⟩ }).cachedSvgs.entries 6 =
      some
        { colorAttachment := 2, texCoordsMin := ⟨0, 0⟩,
          texCoordsMax := ⟨1, 1⟩, svgSize := ⟨20, 20⟩,
          allottedSize := ⟨20, 20⟩, textureOffset := ⟨0, 0⟩ } := by
  refine ⟨(c7_page_rotation_invalidation _ (by simp)).2.1 5
      { colorAttachment := 1, texCoordsMin := ⟨0, 0⟩,
        texCoordsMax := ⟨1, 1⟩, svgSize := ⟨10, 10⟩,
        allottedSize := ⟨10, 10⟩, textureOffset := ⟨0, 0⟩ }
      (by simp [LRUCache.lookupList]) rfl,
    (c7_page_rotation_invalidation _ (by simp)).2.2.1 6
      { colorAttachment := 2, texCoordsMin := ⟨0, 0⟩,
        texCoordsMax := ⟨1, 1⟩, svgSize := ⟨20, 20⟩,
        allottedSize := ⟨20, 20⟩, textureOffset := ⟨0, 0⟩ }
      (by simp [LRUCache.lookupList]) (by decide)⟩

/-- C9: Shelf wrap step.  On a placing miss, whenever
`cursor.x + width + padding ≥ page.width` the packer wraps before attempting
the placement: the run of `put` continues exactly from the state produced by
`incrementCacheCurrentY`, whose cursor is `(0, y + currentShelfHeight +
padding)` and whose open-shelf height is reset to 0. -/
theorem c9_shelf_wrap (panel : ExportPanel) (s : SvgCache) (k : ℕ) (w h : ℚ)
    (hmiss : s.cachedSvgs.existsKey k = false) (hw : 0 < w) (hh : 0 < h)
    (hx : 0 ≤ s.cacheCurrentPos.x)
    (hcond : s.cacheCurrentPos.x + w + cachePadding.x ≥
      (s.framebuffer.width : ℚ)) :
    SvgCache.putSized panel s k w h =
      SvgCache.putPlace panel s.incrementCacheCurrentY.2
        s.incrementCacheCurrentY.1 s.cacheCurrentColorAttachment k w h ∧
    s.incrementCacheCurrentY.1 =
      ⟨0, s.cacheCurrentPos.y + s.cacheLineHeight + cachePadding.y⟩ ∧
    s.incrementCacheCurrentY.2.cacheCurrentPos = s.incrementCacheCurrentY.1 ∧
    s.incrementCacheCurrentY.2.cacheLineHeight = 0 := by
  have hpad : cachePadding.x = 10 := rfl
  have hq : 0 ≤ s.cacheCurrentPos.x + w + cachePadding.x := by
    rw [hpad]
    linarith
  have hwrap : (s.framebuffer.width : ℤ) ≤
      cTruncQ (s.cacheCurrentPos.x + w + cachePadding.x) :=
    cTruncQ_ge_of_ge hq (by exact_mod_cast hcond)
  have hW : s.wrapIfNeeded w = s.incrementCacheCurrentY := by
    simp [SvgCache.wrapIfNeeded, hwrap]
  rw [putSized_miss_eq panel s k w h hmiss hw hh, hW]
  exact ⟨rfl, rfl, rfl, rfl⟩

/-- Witness for C9 with the cursor near the right edge of the page. -/
theorem c9_shelf_wrap_witness :
    (SvgCache.incrementCacheCurrentY
        { cacheCurrentPos := ⟨4000, 20⟩, cacheCurrentColorAttachment := 0,
          cacheLineHeight := 30, cachedSvgs := ⟨[]⟩,
          framebuffer := ⟨4096, 4096, 4⟩ }).1 = ⟨0, 20 + 30 + 10⟩ :=
  ((c9_shelf_wrap ⟨false⟩
      { cacheCurrentPos := ⟨4000, 20⟩, cacheCurrentColorAttachment := 0,
        cacheLineHeight := 30, cachedSvgs := ⟨[]⟩,
        framebuffer := ⟨4096, 4096, 4⟩ } 1 100 50 rfl (by norm_num)
      (by norm_num) (by norm_num)
      (by norm_num [cachePadding])).2.1).trans (by norm_num [cachePadding])

theorem evictionScan_zero (cands : List (ℕ × SvgCacheEntryInternal))
    (store : LRUCache ℕ SvgCacheEntryInternal) (w h : ℚ) :
    evictionScan cands store 0 w h = .notFound [] := by
  cases cands <;> rfl

/-- C10: Implicit small-store rotation.  With fewer than 10 entries the scan
budget `floor(0.1 * N)` is 0, so a vertically overflowing placement never
reuses an existing slot: the eviction scan returns the rotation fallback
without inspecting any entry (even a fitting oldest entry), the trace of `put`
contains the page rotation, and no eviction action appears in it. -/
theorem c10_small_store_rotation (panel : ExportPanel) (s : SvgCache) (k : ℕ)
    (w h : ℚ) (hmiss : s.cachedSvgs.existsKey k = false) (hw : 0 < w)
    (hh : 0 < h) (hsmall : s.cachedSvgs.size < 10)
    (hov : (s.wrapIfNeeded w).1.y + h + cachePadding.y ≥
      (s.framebuffer.height : ℚ)) :
    evictionScan s.cachedSvgs.entries s.cachedSvgs (s.cachedSvgs.size / 10) w h
      = .notFound [] ∧
    Action.rotate ∈ (SvgCache.putSized panel s k w h).2 ∧
    (∀ k', Action.evict k' ∉ (SvgCache.putSized panel s k w h).2) := by
  have hdiv : s.cachedSvgs.size / 10 = 0 := Nat.div_eq_of_lt hsmall
  have hscan0 : evictionScan s.cachedSvgs.entries s.cachedSvgs
      (s.cachedSvgs.size / 10) w h = .notFound [] := by
    rw [hdiv]
    exact evictionScan_zero _ _ _ _
  refine ⟨hscan0, ?_⟩
  rw [putSized_miss_eq panel s k w h hmiss hw hh]
  simp only [SvgCache.putPlace, wrapIfNeeded_framebuffer,
    wrapIfNeeded_cachedSvgs, hov, if_true, hscan0, SvgCache.finishInsert]
  constructor
  · simp
  · intro k'
    cases hB : panel.isExportingVideo <;> simp [hB]

/-- Witness for C10: a single-entry store whose oldest slot would fit the new
rectangle, yet the overflowing placement rotates. -/
theorem c10_small_store_rotation_witness :
    Action.rotate ∈
      (SvgCache.putSized ⟨false⟩
        { cacheCurrentPos := ⟨0, 4086⟩, cacheCurrentColorAttachment := 0,
          cacheLineHeight := 0,
          cachedSvgs := ⟨[(7,
            { colorAttachment := 0, texCoordsMin := ⟨0, 0⟩,
              texCoordsMax := ⟨1, 1⟩, svgSize := ⟨150, 60⟩,
              allottedSize := ⟨200, 60⟩, textureOffset := ⟨0, 0⟩ })]⟩,
          framebuffer := ⟨4096, 4096, 4⟩ } 1 100 50).2 :=
  (c10_small_store_rotation ⟨false⟩
    { cacheCurrentPos := ⟨0, 4086⟩, cacheCurrentColorAttachment := 0,
      cacheLineHeight := 0,
      cachedSvgs := ⟨[(7,
        { colorAttachment := 0, texCoordsMin := ⟨0, 0⟩,
          texCoordsMax := ⟨1, 1⟩, svgSize := ⟨150, 60⟩,
          allottedSize := ⟨200, 60⟩, textureOffset := ⟨0, 0⟩ })]⟩,
      framebuffer := ⟨4096, 4096, 4⟩ } 1 100 50
    (by simp [LRUCache.existsKey, LRUCache.lookupList]) (by norm_num)
    (by norm_num) (by norm_num [LRUCache.size])
    (by norm_num [SvgCache.wrapIfNeeded, cTruncQ, cachePadding])).2.1

/-- C8 counterexample: the claim asserts that for every stored record
`offset + allottedSize` never exceeds the page bounds.  After the horizontal
wrap the code never re-checks the width, so a 5000-wide rectangle placed on a
4096-wide page stores a record whose reserved region sticks out of the page:
`offset.x + allottedSize.x = 5000 > 4096`. -/
theorem c8_counterexample :
    LRUCache.lookupList
        (SvgCache.putSized ⟨false⟩ SvgCache.initState 1 5000 100).1.cachedSvgs.entries
        1 =
      some
        { colorAttachment := 0, texCoordsMin := ⟨0, 1993 / 2048⟩,
          texCoordsMax := ⟨625 / 512, 2043 / 2048⟩, svgSize := ⟨5000, 100⟩,
          allottedSize := ⟨5000, 100⟩, textureOffset := ⟨0, 10⟩ } ∧
    ¬((0 : ℚ) + 5000 ≤ (SvgCache.initState.framebuffer.width : ℚ)) := by
  constructor
  · norm_num [SvgCache.putSized, SvgCache.initState, SvgCache.wrapIfNeeded,
      SvgCache.putPlace, SvgCache.finishInsert, LRUCache.existsKey,
      LRUCache.lookupList, cTruncQ, cachePadding,
      SvgCache.incrementCacheCurrentX, SvgCache.incrementCacheCurrentY,
      SvgCache.checkLineHeight, LRUCache.insert, LRUCache.removeList,
      LRUCache.size, evictionScan]
  · norm_num [SvgCache.initState]

theorem wrapIfNeeded_bounds (s : SvgCache) (w : ℚ)
    (hpx : 0 ≤ s.cacheCurrentPos.x) (hpy : 0 ≤ s.cacheCurrentPos.y)
    (hlh : 0 ≤ s.cacheLineHeight) (hw : 0 < w)
    (hwfit : w + cachePadding.x ≤ (s.framebuffer.width : ℚ)) :
    (s.wrapIfNeeded w).1 = (s.wrapIfNeeded w).2.cacheCurrentPos ∧
    0 ≤ (s.wrapIfNeeded w).1.x ∧ 0 ≤ (s.wrapIfNeeded w).1.y ∧
    0 ≤ (s.wrapIfNeeded w).2.cacheLineHeight ∧
    (s.wrapIfNeeded w).1.x + w ≤ (s.framebuffer.width : ℚ) := by
  have hpadx : cachePadding.x = (10 : ℚ) := rfl
  have hpady : cachePadding.y = (10 : ℚ) := rfl
  rw [hpadx] at hwfit
  by_cases hc : cTruncQ (s.cacheCurrentPos.x + w + cachePadding.x) ≥
      (s.framebuffer.width : ℤ)
  · simp only [SvgCache.wrapIfNeeded, if_pos hc,
      SvgCache.incrementCacheCurrentY]
    refine ⟨trivial, le_refl 0, ?_, le_refl 0, ?_⟩
    · rw [hpady]
      linarith
    · linarith
  · simp only [SvgCache.wrapIfNeeded, if_neg hc]
    refine ⟨trivial, hpx, hpy, hlh, ?_⟩
    have h0 : 0 ≤ s.cacheCurrentPos.x + w + cachePadding.x := by
      rw [hpadx]
      linarith
    have hlt := lt_of_cTruncQ_lt h0 (not_le.mp hc)
    rw [hpadx] at hlt
    push_cast at hlt
    linarith

/-- C8 (amended): Placement bounds invariant with an in-page content size.
For every stored record `allottedSize` is componentwise at least `svgSize`
(this half holds unconditionally and is part of the invariant below), and as
long as every request's padded content fits the page dimensions
(`w + padding ≤ width`, `h + padding ≤ height`), `put` preserves the invariant
that every stored record's reserved region lies entirely within its page —
without that proviso the invariant fails (see the counterexample). -/
theorem c8_amended_placement_bounds (panel : ExportPanel) (s : SvgCache)
    (k : ℕ) (w h : ℚ) (hok : cacheStateOK s) (hw : 0 < w) (hh : 0 < h)
    (hwfit : w + cachePadding.x ≤ (s.framebuffer.width : ℚ))
    (hhfit : h + cachePadding.y ≤ (s.framebuffer.height : ℚ)) :
    cacheStateOK (SvgCache.putSized panel s k w h).1 := by
  obtain ⟨hrec, hpx, hpy, hlh⟩ := hok
  have hpadx : cachePadding.x = (10 : ℚ) := rfl
  have hpady : cachePadding.y = (10 : ℚ) := rfl
  cases hex : s.cachedSvgs.existsKey k with
  | true =>
    have hid : SvgCache.putSized panel s k w h = (s, []) := by
      simp [SvgCache.putSized, hex]
    rw [hid]
    exact ⟨hrec, hpx, hpy, hlh⟩
  | false =>
    rw [putSized_miss_eq panel s k w h hex hw hh]
    obtain ⟨hWpos, hWx, hWy, hWlh, hWxb⟩ :=
      wrapIfNeeded_bounds s w hpx hpy hlh hw hwfit
    have hfbW : (s.wrapIfNeeded w).2.framebuffer = s.framebuffer :=
      wrapIfNeeded_framebuffer s w
    have hcsW : (s.wrapIfNeeded w).2.cachedSvgs = s.cachedSvgs :=
      wrapIfNeeded_cachedSvgs s w
    by_cases hov : (s.wrapIfNeeded w).1.y + h + cachePadding.y ≥
        ((s.wrapIfNeeded w).2.framebuffer.height : ℚ)
    · simp only [SvgCache.putPlace, if_pos hov]
      rcases hscan : evictionScan (s.wrapIfNeeded w).2.cachedSvgs.entries
          (s.wrapIfNeeded w).2.cachedSvgs
          ((s.wrapIfNeeded w).2.cachedSvgs.size / 10) w h with
        ⟨al, off, att', st', acts⟩ | ⟨acts⟩
      · obtain ⟨key, e, hmem, hal, hoff, hatt, hfw, hfh, -, hsub⟩ :=
          evictionScan_found_spec _ _ _ _ _ _ _ _ _ _ hscan
        have he : recordInBounds s.framebuffer e := by
          rw [hcsW] at hmem
          exact hrec _ hmem
        simp only [SvgCache.finishInsert, Bool.false_eq_true, if_false,
          cacheStateOK]
        refine ⟨?_, ?_, ?_, ?_⟩
        · apply LRUCache.insert_entries_forall
          · intro p hp
            have hp' : p ∈ s.cachedSvgs.entries := by
              have := hsub p hp
              rw [hcsW] at this
              exact this
            simp only [hfbW]
            exact hrec _ hp'
          · simp only [recordInBounds, hfbW]
            obtain ⟨-, -, he3, he4, he5, he6⟩ := he
            rw [hal, hoff]
            exact ⟨hfw, hfh, he3, he4, he5, he6⟩
        · rw [← hWpos]
          exact hWx
        · rw [← hWpos]
          exact hWy
        · exact hWlh
      · simp only [SvgCache.finishInsert, if_true, SvgCache.growCache,
          SvgCache.incrementCacheCurrentX, SvgCache.checkLineHeight,
          cacheStateOK]
        refine ⟨?_, ?_, ?_, ?_⟩
        · apply LRUCache.insert_entries_forall
          · intro p hp
            simp only [List.mem_filter] at hp
            have hp' : p ∈ s.cachedSvgs.entries := by
              rw [← hcsW]
              exact hp.1
            simp only [hfbW]
            exact hrec _ hp'
          · simp only [recordInBounds, hfbW]
            refine ⟨le_refl w, le_refl h, le_refl 0, le_refl 0, ?_, ?_⟩
            · rw [hpadx] at hwfit
              linarith
            · rw [hpady] at hhfit
              linarith
        · rw [hpadx]
          linarith
        · exact le_refl 0
        · exact le_max_of_le_right hh.le
    · simp only [SvgCache.putPlace, if_neg hov]
      simp only [SvgCache.finishInsert, if_true,
        SvgCache.incrementCacheCurrentX, SvgCache.checkLineHeight,
        cacheStateOK]
      have hyb : (s.wrapIfNeeded w).1.y + h ≤ (s.framebuffer.height : ℚ) := by
        rw [hfbW] at hov
        push_neg at hov
        rw [hpady] at hov
        linarith
      refine ⟨?_, ?_, ?_, ?_⟩
      · apply LRUCache.insert_entries_forall
        · intro p hp
          have hp' : p ∈ s.cachedSvgs.entries := by
            rw [← hcsW]
            exact hp
          simp only [hfbW]
          exact hrec _ hp'
        · simp only [recordInBounds, hfbW]
          exact ⟨le_refl w, le_refl h, hWx, hWy, hWxb, hyb⟩
      · rw [← hWpos, hpadx]
        linarith
      · rw [← hWpos]
        exact hWy
      · exact le_max_of_le_right hh.le

/-- Witness for C8 (amended) on the empty initial cache. -/
theorem c8_amended_placement_bounds_witness :
    cacheStateOK (SvgCache.putSized ⟨false⟩ SvgCache.initState 1 100 50).1 :=
  c8_amended_placement_bounds ⟨false⟩ SvgCache.initState 1 100 50
    (by
      refine ⟨?_, ?_, ?_, ?_⟩ <;>
        simp [cacheStateOK, SvgCache.initState])
    (by norm_num) (by norm_num)
    (by norm_num [SvgCache.initState, cachePadding])
    (by norm_num [SvgCache.initState, cachePadding])

end MathAnim
